import Mathlib

/-!
# PocketMicroLIB — verification of the cellular modem networking core

A shallow embedding (in Lean 4) of the parts of the PocketMicroLIB sources
that the specification's claims talk about:

* `micro_modem.py` — `wait_response`, `wait_response_async`;
* `ublox_sara_r.py` — model detection, `get_time`, `connect_step`,
  `socket_send`/`_send_once`, `socket_recv`, `_handle_uusord`,
  `extract_usord_data`, `socket_close`;
* `soracom_harvest_files.py` — the upload state machine `tick` / `is_busy`.

Byte strings are modelled as `List Nat` (the byte values); Python `int`
results are `Int`; functions that can raise or return `None` return
`Option`.  Modem I/O (UART reads, AT responses) is supplied through
explicit oracle arguments, so every definition stays executable.
-/

namespace PocketMicroLIB

/-! ## Byte-string utilities (Python `bytes` operations on `List Nat`) -/

/-- `isPrefixB key l` — Python `l.startswith(key)` restricted to the front. -/
def isPrefixB : List Nat → List Nat → Bool
  | [], _ => true
  | _ :: _, [] => false
  | k :: ks, x :: xs => k == x && isPrefixB ks xs

/-- `containsSeq l key` — Python `key in l` for byte strings. -/
def containsSeq : List Nat → List Nat → Bool
  | [], key => isPrefixB key []
  | l@(_ :: xs), key => isPrefixB key l || containsSeq xs key

/-- Auxiliary scanner for `find`: first index (offset by `i`) where byte `b` occurs. -/
def findByteAux (b : Nat) : List Nat → Nat → Option Nat
  | [], _ => none
  | x :: xs, i => if x = b then some i else findByteAux b xs (i + 1)

/-- Python `l.find(bytes([b]), s)`: first index `≥ s` holding byte `b`. -/
def findByteFrom (l : List Nat) (b : Nat) (s : Nat) : Option Nat :=
  (findByteAux b (l.drop s) 0).map (· + s)

/-- Auxiliary scanner for substring `find`. -/
def findSubAux (key : List Nat) : List Nat → Nat → Option Nat
  | [], i => if isPrefixB key [] then some i else none
  | l@(_ :: xs), i => if isPrefixB key l then some i else findSubAux key xs (i + 1)

/-- Python `l.find(key)`: index of the first occurrence of `key`, if any. -/
def findSub (l key : List Nat) : Option Nat :=
  findSubAux key l 0

/-- Python `l.rfind(bytes([b]))`: index of the last occurrence of byte `b`. -/
def rfindByte (l : List Nat) (b : Nat) : Option Nat :=
  (findByteAux b l.reverse 0).map (fun i => l.length - 1 - i)

/-- Python `l.split(b"\r\n")` (CR = 13, LF = 10); empty segments are kept. -/
def splitCRLF : List Nat → List (List Nat)
  | [] => [[]]
  | 13 :: 10 :: rest => [] :: splitCRLF rest
  | x :: rest =>
    match splitCRLF rest with
    | [] => [[x]]
    | s :: ss => (x :: s) :: ss

/-- Python `l.split(bytes([b]))`: split on every occurrence of byte `b`. -/
def splitOnByte (b : Nat) : List Nat → List (List Nat)
  | [] => [[]]
  | x :: rest =>
    if x = b then [] :: splitOnByte b rest
    else
      match splitOnByte b rest with
      | [] => [[x]]
      | s :: ss => (x :: s) :: ss

/-- Python `l.split(bytes([b]), 1)`: the part before the first `b`, and
(if `b` occurs) the part after it. -/
def splitOnceByte (b : Nat) : List Nat → List Nat × Option (List Nat)
  | [] => ([], none)
  | x :: xs =>
    if x = b then ([], some xs)
    else
      let (p, r) := splitOnceByte b xs
      (x :: p, r)

/-- ASCII whitespace as recognised by Python `strip()`. -/
def isSpaceB (c : Nat) : Bool := c == 32 || (9 ≤ c && c ≤ 13)

/-- Python `l.strip()`. -/
def stripB (l : List Nat) : List Nat :=
  (((l.dropWhile isSpaceB).reverse).dropWhile isSpaceB).reverse

/-- Digit-string value; `none` unless the list is a nonempty run of ASCII digits. -/
def digitsValAux : List Nat → Nat → Option Nat
  | [], acc => some acc
  | c :: cs, acc => if 48 ≤ c ∧ c ≤ 57 then digitsValAux cs (acc * 10 + (c - 48)) else none

/-- See `digitsValAux`. -/
def digitsVal (l : List Nat) : Option Nat :=
  if l = [] then none else digitsValAux l 0

/-- Python `int(bytes)`: strip whitespace, optional sign, decimal digits;
`none` models the `ValueError` raised on any other shape. -/
def pyInt (l : List Nat) : Option Int :=
  match stripB l with
  | [] => none
  | c :: cs =>
    if c = 45 then (digitsVal cs).map (fun n => -(n : Int))
    else if c = 43 then (digitsVal cs).map (fun n => (n : Int))
    else (digitsVal (c :: cs)).map (fun n => (n : Int))

/-! ## `ublox_sara_r.py` — `socket_send` / `_send_once`

`_send_once` performs one `AT+USOWR` prompt-write exchange and returns the
parsed written count, or `-1` on a missing response / parse failure.  We
model the whole exchange as an oracle `f : Nat → Nat → Int`: `f i req` is
the value `_send_once` returns on its `i`-th invocation when asked to send
`req` bytes.  `socket_send` itself is the nested retry loop of the source.
-/

/-- `MAX_RETRIES` of `socket_send`. -/
def MAX_RETRIES : Nat := 20

/-- The inner `while retries < MAX_RETRIES` loop of `socket_send`: keep
calling `_send_once` (the oracle `f`, at call index `i`, for `req`
remaining bytes) while it yields `≤ 0`; `fuel` counts the remaining retry
budget (`MAX_RETRIES - retries`).  Returns the accepted count (`> 0`) and
the next call index, or `none` when the budget is exhausted. -/
def sendRetry (f : Nat → Nat → Int) (req i : Nat) : Nat → Option (Nat × Nat)
  | 0 => none
  | fuel + 1 =>
    let sent := f i req
    if sent ≤ 0 then sendRetry f req (i + 1) fuel
    else some (sent.toNat, i + 1)

theorem sendRetry_pos {f : Nat → Nat → Int} {req i s i' : Nat} :
    ∀ {fuel : Nat}, sendRetry f req i fuel = some (s, i') → 0 < s := by
  intro fuel
  induction fuel generalizing i with
  | zero => intro h; simp [sendRetry] at h
  | succ n ih =>
    intro h
    unfold sendRetry at h
    by_cases hle : f i req ≤ 0
    · simp only [hle, if_pos] at h
      exact ih h
    · simp only [hle, if_neg, not_false_iff] at h
      obtain ⟨h1, _⟩ := Prod.mk.injEq .. ▸ (Option.some.injEq .. ▸ h)
      omega

theorem sendRetry_le {f : Nat → Nat → Int} (hf : ∀ i req, f i req ≤ (req : Int))
    {req i s i' : Nat} :
    ∀ {fuel : Nat}, sendRetry f req i fuel = some (s, i') → s ≤ req := by
  intro fuel
  induction fuel generalizing i with
  | zero => intro h; simp [sendRetry] at h
  | succ n ih =>
    intro h
    unfold sendRetry at h
    by_cases hle : f i req ≤ 0
    · simp only [hle, if_pos] at h
      exact ih h
    · simp only [hle, if_neg, not_false_iff] at h
      obtain ⟨h1, _⟩ := Prod.mk.injEq .. ▸ (Option.some.injEq .. ▸ h)
      have := hf i req
      omega

/-- The outer `while total < len(data)` loop of `socket_send`: `total`
bytes already accepted, `i` the next `_send_once` call index.  Each outer
iteration restarts the retry budget at `MAX_RETRIES`, exactly as the
source resets `retries = 0`. -/
def sendLoop (f : Nat → Nat → Int) (len : Nat) (total i : Nat) : Int :=
  if h : total < len then
    match hr : sendRetry f (len - total) i MAX_RETRIES with
    | none => -1
    | some (sent, i') => sendLoop f len (total + sent) i'
  else (total : Int)
termination_by len - total
decreasing_by
  have := sendRetry_pos hr
  omega

/-- `socket_send` of `ublox_sara_r.py`: `-1` when no socket is connected,
otherwise the outer loop starting from `total = 0`. -/
def socket_send (sock_num : Int) (f : Nat → Nat → Int) (len : Nat) : Int :=
  if sock_num < 0 then -1 else sendLoop f len 0 0

theorem sendLoop_result {f : Nat → Nat → Int} (hf : ∀ i req, f i req ≤ (req : Int))
    (len : Nat) :
    ∀ total i, total ≤ len → sendLoop f len total i = (len : Int) ∨
      sendLoop f len total i = -1 := by
  have H : ∀ k total i, len - total = k → total ≤ len →
      sendLoop f len total i = (len : Int) ∨ sendLoop f len total i = -1 := by
    intro k
    induction k using Nat.strong_induction_on with
    | _ k ih =>
      intro total i hk htot
      unfold sendLoop
      by_cases h : total < len
      · simp only [h, dif_pos]
        cases hr : sendRetry f (len - total) i MAX_RETRIES with
        | none => right; rfl
        | some p =>
          obtain ⟨sent, i'⟩ := p
          have hpos := sendRetry_pos hr
          have hle := sendRetry_le hf hr
          exact ih (len - (total + sent)) (by omega) (total + sent) i' rfl (by omega)
      · simp only [h, dif_neg, not_false_iff]
        left
        congr 1
        omega
  intro total i htot
  exact H (len - total) total i rfl htot

/-- Oracle for the C1 witness, following the spec's partial-send scenario:
the first `_send_once` accepts 1000 bytes, the second accepts 0, the third
accepts the remaining 1500 (each capped at the requested length). -/
def c1Oracle (i req : Nat) : Int :=
  if i = 1 then 0 else min (if i = 0 then 1000 else 1500) (req : Int)

/-- **C1** — For every byte sequence sent with `socket_send` on a connected
socket (`sock_num ≥ 0`), provided each `+USOWR` written count reported by
the modem is at most the requested length (the prompt-write invariant),
the return value is either exactly the input length (all bytes accepted)
or `-1` after the retry budget is exhausted; in particular `socket_send`
never returns a positive number smaller than the length of its input. -/
theorem socket_send_all_or_fail (sock_num : Int) (f : Nat → Nat → Int) (len : Nat)
    (hsock : 0 ≤ sock_num) (hf : ∀ i req, f i req ≤ (req : Int)) :
    socket_send sock_num f len = (len : Int) ∨ socket_send sock_num f len = -1 := by
  unfold socket_send
  rw [if_neg (by omega)]
  exact sendLoop_result hf len 0 0 (Nat.zero_le _)

/-- Witness for `socket_send_all_or_fail`: the hypotheses hold for socket 0
with the concrete oracle `c1Oracle` on a 2500-byte input. -/
theorem socket_send_all_or_fail_witness :
    ((0 : Int) ≤ 0 ∧ ∀ i req, c1Oracle i req ≤ (req : Int)) ∧
      (socket_send 0 c1Oracle 2500 = (2500 : Int) ∨ socket_send 0 c1Oracle 2500 = -1) := by
  have hf : ∀ i req, c1Oracle i req ≤ (req : Int) := by
    intro i req
    unfold c1Oracle
    split
    · omega
    · exact min_le_right _ _
  exact ⟨⟨le_refl 0, hf⟩, socket_send_all_or_fail 0 c1Oracle 2500 (le_refl 0) hf⟩

/-! ## `ublox_sara_r.py` — model detection and `connect_step`

`connect_step` is a single-step state machine over `self.connect_state`.
Each call consults `wait_response_async` (modelled as an environment
value: found / still pending / timed out), the elapsed
`ticks_diff(now, connect_start)`, `self.last_response`, and for the one
synchronous command (`AT+UAUTHREQ`) a success flag.  The step returns the
new state, the Python return value (the source returns only `True` or
`False`; `error()` returns `False`), and the AT commands written during
the step.
-/

/-- Modem model as detected from the `ATI` response. -/
inductive Model
  | R510
  | R410
  | Unknown_model
  deriving DecidableEq, Repr

/-- Model detection of `initialize` (`ublox_sara_r.py`): `R510` wins over
`R410`; anything else is the sentinel `Unknown_model`. -/
def detectModel (resp : List Nat) : Model :=
  if containsSeq resp [82, 53, 49, 48] then .R510          -- b"R510"
  else if containsSeq resp [82, 52, 49, 48] then .R410     -- b"R410"
  else .Unknown_model

/-- The values of `self.connect_state`. -/
inductive ConnState
  | idle
  | umnoprof_wait
  | r410_cfun15_send | r410_cfun15_wait
  | r410_cops2_send | r410_cops2_wait
  | r410_cgdcont_send | r410_cgdcont_wait
  | r410_done_wait
  | r510_cfun16_send | r510_cfun16_wait
  | r510_cfun0_send_wait | r510_cfun0_send | r510_cfun0_wait
  | r510_cgdcont_send | r510_cgdcont_wait
  | r510_cfun1_send | r510_cfun1_wait
  | cereg_check_send | cereg_check_wait
  | cgatt_check_send | cgatt_check_wait
  | udsd0_send | udsd0_wait
  | udsd100_send | udsd100_wait
  | udsda_send | udsda_wait
  | done
  deriving DecidableEq, Repr

/-- Outcome of a `wait_response_async("OK")` probe inside `connect_step`:
`found` (Python `True`), `pending` (Python `False`), `timedOut`
(Python `None`).  Both `pending` and `timedOut` are falsy. -/
inductive Wra
  | found
  | pending
  | timedOut
  deriving DecidableEq, Repr

/-- AT commands `connect_step` can write (tag per exact command string). -/
inductive Cmd
  | umnoprof20       -- AT+UMNOPROF=20
  | cfun15           -- AT+CFUN=15
  | cops2            -- AT+COPS=2
  | cgdcontR410      -- AT+CGDCONT=<pdp>,"IP","<apn>"
  | uauthreq         -- AT+UAUTHREQ=<pdp>,1,"<user>","<key>"
  | cops0            -- AT+COPS=0
  | cfun16           -- AT+CFUN=16
  | cfun0            -- AT+CFUN=0
  | cgdcontR510      -- AT+CGDCONT=<pdp>,"IPV4V6","<apn>"
  | cfun1            -- AT+CFUN=1
  | ceregQ           -- AT+CEREG?
  | cgattQ           -- AT+CGATT?
  | upsd000          -- AT+UPSD=0,0,0
  | upsd1001         -- AT+UPSD=0,100,1
  | upsda03          -- AT+UPSDA=0,3
  | cfun0Disconnect  -- AT+CFUN=0 issued by disconnect()
  deriving DecidableEq, Repr

/-- Per-call environment of `connect_step`. -/
structure StepEnv where
  /-- Result of `wait_response_async("OK")` in this step. -/
  wra : Wra
  /-- `utime.ticks_diff(now, self.connect_start)` at this step. -/
  elapsed : Nat
  /-- `self.last_response` as left by the async wait. -/
  lastResp : List Nat
  /-- Result of the synchronous `send_at(AT+UAUTHREQ...)`. -/
  uauthOk : Bool

/-- Result of one `connect_step` call. -/
structure StepOut where
  state : ConnState
  /-- The Python return value — the source returns only `True`/`False`
  (`error()` returns `False`); it never returns `None`. -/
  ret : Bool
  cmds : List Cmd
  deriving DecidableEq, Repr

/-- `send_at(..., async_mode=True)` returns `True` unconditionally
(`micro_modem.py`, the `if async_mode: return True` early exit). -/
def send_at_async : Bool := true

/-- `b"+CEREG: 0,1" in last_response or b"+CEREG: 0,5" in last_response`. -/
def ceregRegistered (resp : List Nat) : Bool :=
  containsSeq resp [43, 67, 69, 82, 69, 71, 58, 32, 48, 44, 49]
    || containsSeq resp [43, 67, 69, 82, 69, 71, 58, 32, 48, 44, 53]

/-- `b"+CGATT: 1" in last_response`. -/
def cgattAttached (resp : List Nat) : Bool :=
  containsSeq resp [43, 67, 71, 65, 84, 84, 58, 32, 49]

/-- One call of `connect_step` (`ublox_sara_r.py`), as a pure transition.
`error(msg)` (non-fatal) logs and returns `False` without touching the
state; `disconnect()` sends `AT+CFUN=0` and sets the state to `idle`. -/
def connect_step (mdl : Model) (st : ConnState) (env : StepEnv) : StepOut :=
  match st with
  | .idle => ⟨.umnoprof_wait, false, [.umnoprof20]⟩
  | .umnoprof_wait =>
    if env.wra = .found then
      if mdl = .R410 then ⟨.r410_cfun15_send, false, []⟩
      else ⟨.r510_cfun16_send, false, []⟩
    else if env.elapsed > 20000 then ⟨.idle, false, [.cfun0Disconnect]⟩
    else ⟨.umnoprof_wait, false, []⟩
  | .r410_cfun15_send =>
    if env.elapsed > 2000 then ⟨.r410_cfun15_wait, false, [.cfun15]⟩
    else ⟨.r410_cfun15_send, false, []⟩
  | .r410_cfun15_wait =>
    if env.wra = .found then ⟨.r410_cops2_send, false, []⟩
    else if env.elapsed > 60000 then ⟨.r410_cfun15_wait, false, []⟩
    else ⟨.r410_cfun15_wait, false, []⟩
  | .r410_cops2_send =>
    if env.elapsed > 10000 then ⟨.r410_cops2_wait, false, [.cops2]⟩
    else ⟨.r410_cops2_send, false, []⟩
  | .r410_cops2_wait =>
    if env.wra = .found then ⟨.r410_cgdcont_send, false, []⟩
    else if env.elapsed > 120000 then ⟨.r410_cops2_send, false, []⟩
    else ⟨.r410_cops2_wait, false, []⟩
  | .r410_cgdcont_send =>
    if send_at_async = false then ⟨.idle, false, [.cgdcontR410]⟩  -- error(fatal=True)
    else ⟨.r410_cgdcont_wait, false, [.cgdcontR410]⟩
  | .r410_cgdcont_wait =>
    if env.wra = .found then
      if env.uauthOk = false then ⟨.r410_cgdcont_wait, false, [.uauthreq]⟩
      else ⟨.r410_done_wait, false, [.uauthreq, .cops0]⟩
    else if env.elapsed > 60000 then ⟨.r410_cgdcont_wait, false, []⟩
    else ⟨.r410_cgdcont_wait, false, []⟩
  | .r410_done_wait =>
    if env.wra = .found then ⟨.cereg_check_send, false, []⟩
    else if env.elapsed > 20000 then ⟨.r410_done_wait, false, []⟩
    else ⟨.r410_done_wait, false, []⟩
  | .r510_cfun16_send => ⟨.r510_cfun16_wait, false, [.cfun16]⟩
  | .r510_cfun16_wait =>
    if env.wra = .found then ⟨.r510_cfun0_send_wait, false, []⟩
    else if env.elapsed > 40000 then ⟨.r510_cfun16_wait, false, []⟩
    else ⟨.r510_cfun16_wait, false, []⟩
  | .r510_cfun0_send_wait =>
    if env.elapsed > 10000 then ⟨.r510_cfun0_send, false, []⟩
    else ⟨.r510_cfun0_send_wait, false, []⟩
  | .r510_cfun0_send => ⟨.r510_cfun0_wait, false, [.cfun0]⟩
  | .r510_cfun0_wait =>
    if env.wra = .found then ⟨.r510_cgdcont_send, false, []⟩
    else if env.elapsed > 40000 then ⟨.r510_cfun0_wait, false, []⟩
    else ⟨.r510_cfun0_wait, false, []⟩
  | .r510_cgdcont_send => ⟨.r510_cgdcont_wait, false, [.cgdcontR510]⟩
  | .r510_cgdcont_wait =>
    if env.wra = .found then ⟨.r510_cfun1_send, false, []⟩
    else if env.elapsed > 20000 then ⟨.r510_cgdcont_wait, false, []⟩
    else ⟨.r510_cgdcont_wait, false, []⟩
  | .r510_cfun1_send => ⟨.r510_cfun1_wait, false, [.cfun1]⟩
  | .r510_cfun1_wait =>
    if env.wra = .found then ⟨.cereg_check_send, false, []⟩
    else if env.elapsed > 20000 then ⟨.r510_cfun1_wait, false, []⟩
    else ⟨.r510_cfun1_wait, false, []⟩
  | .cereg_check_send =>
    if env.elapsed > 1000 then ⟨.cereg_check_wait, false, [.ceregQ]⟩
    else ⟨.cereg_check_send, false, []⟩
  | .cereg_check_wait =>
    if env.wra = .found then
      if ceregRegistered env.lastResp then ⟨.cgatt_check_send, false, []⟩
      else ⟨.cereg_check_send, false, []⟩
    else if env.elapsed > 1200 then ⟨.cereg_check_send, false, []⟩
    else ⟨.cereg_check_wait, false, []⟩
  | .cgatt_check_send =>
    if env.elapsed > 1000 then ⟨.cgatt_check_wait, false, [.cgattQ]⟩
    else ⟨.cgatt_check_send, false, []⟩
  | .cgatt_check_wait =>
    if env.wra = .found then
      if cgattAttached env.lastResp then
        if mdl = .R410 then ⟨.done, false, []⟩
        else ⟨.udsd0_send, false, []⟩
      else ⟨.cgatt_check_send, false, []⟩
    else if env.elapsed > 30000 then ⟨.cgatt_check_wait, false, []⟩
    else ⟨.cgatt_check_wait, false, []⟩
  | .udsd0_send => ⟨.udsd0_wait, false, [.upsd000]⟩
  | .udsd0_wait =>
    if env.wra = .found then ⟨.udsd100_send, false, []⟩
    else if env.elapsed > 20000 then ⟨.udsd0_wait, false, []⟩
    else ⟨.udsd0_wait, false, []⟩
  | .udsd100_send => ⟨.udsd100_wait, false, [.upsd1001]⟩
  | .udsd100_wait =>
    if env.wra = .found then ⟨.udsda_send, false, []⟩
    else if env.elapsed > 20000 then ⟨.udsd100_wait, false, []⟩
    else ⟨.udsd100_wait, false, []⟩
  | .udsda_send => ⟨.udsda_wait, false, [.upsda03]⟩
  | .udsda_wait =>
    if env.wra = .found then ⟨.done, false, []⟩
    else if env.elapsed > 20000 then ⟨.udsda_wait, false, []⟩
    else ⟨.udsda_wait, false, []⟩
  | .done => ⟨.done, true, []⟩

/-- **C2 (counterexample)** — The claim says every per-state timeout other
than `r410_cops2_wait` / `cereg_check_wait` / `cgatt_check_wait`
transitions `connect_state` to `idle` (returning `None`), and that
`cgatt_check_wait` loops back to `cgatt_check_send`.  At the concrete
timed-out inputs below, the code instead leaves `r410_cfun15_wait`
unchanged (not `idle`) and leaves `cgatt_check_wait` unchanged (not
`cgatt_check_send`), returning `False` in both cases. -/
theorem connect_step_timeout_claim_false :
    connect_step .R410 .r410_cfun15_wait ⟨.pending, 60001, [], true⟩
        = ⟨.r410_cfun15_wait, false, []⟩
      ∧ (connect_step .R410 .r410_cfun15_wait ⟨.pending, 60001, [], true⟩).state ≠ .idle
      ∧ connect_step .R410 .cgatt_check_wait ⟨.pending, 30001, [], true⟩
        = ⟨.cgatt_check_wait, false, []⟩
      ∧ (connect_step .R410 .cgatt_check_wait ⟨.pending, 30001, [], true⟩).state
        ≠ .cgatt_check_send := by
  decide

/-- **C2 (amended)** — In `connect_step`, every per-state timeout logs and
returns `False` (never `None`).  Only the `umnoprof_wait` timeout
transitions to `idle` (via `disconnect()`, which also sends `AT+CFUN=0`);
the `r410_cops2_wait` and `cereg_check_wait` timeouts transition back to
their SEND states (`r410_cops2_send`, `cereg_check_send`); every other
wait-state timeout — including `cgatt_check_wait` — leaves
`connect_state` unchanged. -/
theorem connect_step_timeout_behaviour (mdl : Model) (env : StepEnv)
    (hw : ¬ env.wra = .found) :
    (env.elapsed > 20000 →
        connect_step mdl .umnoprof_wait env = ⟨.idle, false, [.cfun0Disconnect]⟩)
      ∧ (env.elapsed > 120000 →
        connect_step mdl .r410_cops2_wait env = ⟨.r410_cops2_send, false, []⟩)
      ∧ (env.elapsed > 1200 →
        connect_step mdl .cereg_check_wait env = ⟨.cereg_check_send, false, []⟩)
      ∧ (env.elapsed > 60000 →
        connect_step mdl .r410_cfun15_wait env = ⟨.r410_cfun15_wait, false, []⟩)
      ∧ (env.elapsed > 60000 →
        connect_step mdl .r410_cgdcont_wait env = ⟨.r410_cgdcont_wait, false, []⟩)
      ∧ (env.elapsed > 20000 →
        connect_step mdl .r410_done_wait env = ⟨.r410_done_wait, false, []⟩)
      ∧ (env.elapsed > 40000 →
        connect_step mdl .r510_cfun16_wait env = ⟨.r510_cfun16_wait, false, []⟩)
      ∧ (env.elapsed > 40000 →
        connect_step mdl .r510_cfun0_wait env = ⟨.r510_cfun0_wait, false, []⟩)
      ∧ (env.elapsed > 20000 →
        connect_step mdl .r510_cgdcont_wait env = ⟨.r510_cgdcont_wait, false, []⟩)
      ∧ (env.elapsed > 20000 →
        connect_step mdl .r510_cfun1_wait env = ⟨.r510_cfun1_wait, false, []⟩)
      ∧ (env.elapsed > 30000 →
        connect_step mdl .cgatt_check_wait env = ⟨.cgatt_check_wait, false, []⟩)
      ∧ (env.elapsed > 20000 →
        connect_step mdl .udsd0_wait env = ⟨.udsd0_wait, false, []⟩)
      ∧ (env.elapsed > 20000 →
        connect_step mdl .udsd100_wait env = ⟨.udsd100_wait, false, []⟩)
      ∧ (env.elapsed > 20000 →
        connect_step mdl .udsda_wait env = ⟨.udsda_wait, false, []⟩) := by
  refine ⟨?_, ?_, ?_, ?_, ?_, ?_, ?_, ?_, ?_, ?_, ?_, ?_, ?_, ?_⟩ <;>
    · intro he
      simp only [connect_step]
      rw [if_neg hw, if_pos he]

/-- Witness for `connect_step_timeout_behaviour`: two of its conjuncts
evaluated at a concrete timed-out environment. -/
theorem connect_step_timeout_behaviour_witness :
    connect_step .R410 .umnoprof_wait ⟨.pending, 130000, [], true⟩
        = ⟨.idle, false, [.cfun0Disconnect]⟩
      ∧ connect_step .R410 .r410_cops2_wait ⟨.pending, 130000, [], true⟩
        = ⟨.r410_cops2_send, false, []⟩ := by
  have h := connect_step_timeout_behaviour .R410 ⟨.pending, 130000, [], true⟩ (by decide)
  exact ⟨h.1 (by norm_num), h.2.1 (by norm_num)⟩

/-- **C10** — Whenever the `ATI` response identifies neither `R510` nor
`R410`, the detected model is the sentinel `Unknown_model`, and
`connect_step` drives the full R510 sequence for it: `umnoprof_wait`
branches to `r510_cfun16_send` for every model other than `R410`, and
after observing `+CGATT: 1` the `cgatt_check_wait` state branches to the
UPSD/UPSDA activation chain (`udsd0_send`), whose send states issue
`AT+UPSD=0,0,0`, `AT+UPSD=0,100,1` and `AT+UPSDA=0,3`. -/
theorem unknown_model_runs_r510_sequence (resp : List Nat) (env : StepEnv)
    (h510 : containsSeq resp [82, 53, 49, 48] = false)
    (h410 : containsSeq resp [82, 52, 49, 48] = false)
    (hfound : env.wra = .found)
    (hatt : cgattAttached env.lastResp = true) :
    detectModel resp = .Unknown_model
      ∧ connect_step (detectModel resp) .umnoprof_wait env
        = ⟨.r510_cfun16_send, false, []⟩
      ∧ connect_step (detectModel resp) .cgatt_check_wait env
        = ⟨.udsd0_send, false, []⟩
      ∧ connect_step (detectModel resp) .udsd0_send env
        = ⟨.udsd0_wait, false, [.upsd000]⟩
      ∧ connect_step (detectModel resp) .udsd100_send env
        = ⟨.udsd100_wait, false, [.upsd1001]⟩
      ∧ connect_step (detectModel resp) .udsda_send env
        = ⟨.udsda_wait, false, [.upsda03]⟩ := by
  have hm : detectModel resp = .Unknown_model := by
    unfold detectModel
    rw [if_neg (by simp [h510]), if_neg (by simp [h410])]
  refine ⟨hm, ?_, ?_, ?_, ?_, ?_⟩ <;>
    simp [hm, connect_step, hfound, hatt]

/-- Witness for `unknown_model_runs_r510_sequence`: an `ATI` response
naming neither model, and a `+CGATT: 1` last response. -/
theorem unknown_model_runs_r510_sequence_witness :
    detectModel [] = .Unknown_model
      ∧ connect_step (detectModel []) .umnoprof_wait
          ⟨.found, 0, [43, 67, 71, 65, 84, 84, 58, 32, 49], true⟩
        = ⟨.r510_cfun16_send, false, []⟩
      ∧ connect_step (detectModel []) .cgatt_check_wait
          ⟨.found, 0, [43, 67, 71, 65, 84, 84, 58, 32, 49], true⟩
        = ⟨.udsd0_send, false, []⟩ := by
  have h := unknown_model_runs_r510_sequence []
    ⟨.found, 0, [43, 67, 71, 65, 84, 84, 58, 32, 49], true⟩
    (by decide) (by decide) rfl (by decide)
  exact ⟨h.1, h.2.1, h.2.2.1⟩

/-! ## `soracom_harvest_files.py` — the upload state machine

`tick()` advances one state per call.  File-system and HTTP effects are
supplied by a per-tick environment (`stat`/`open` outcome, header-POST
outcome, next chunk read, chunk-send result, response read), and the side
effects performed by a tick (closing the file, closing the HTTP socket,
opening the file) are reported as an action list.
-/

/-- The states of `SoracomHarvestFiles`. -/
inductive HFState
  | HF_IDLE | HF_PREPARE | HF_OPEN | HF_SENDING | HF_CLOSING | HF_DONE | HF_ABORT | HF_WAIT
  deriving DecidableEq, Repr

/-- `CHUNK_SIZE` of `SoracomHarvestFiles`. -/
def CHUNK_SIZE : Nat := 1024

/-- The mutable fields of `SoracomHarvestFiles` that `tick` touches.
`hasFile` models the truthiness of `self.file`. -/
structure HFSt where
  state : HFState
  hasFile : Bool
  filesize : Nat
  buf : List Nat
  buf_offset : Nat
  sent_bytes : Nat
  retry : Nat
  header_retry : Nat
  next_time : Nat
  last_response : List Nat
  deriving DecidableEq, Repr

/-- Per-tick environment. -/
structure HFEnv where
  /-- `utime.time()` at the top of `tick`. -/
  now : Nat
  /-- PREPARE: `some size` if `os.stat`+`open` succeed within the 5
  attempts, `none` if every attempt raises `OSError`. -/
  statRes : Option Nat
  /-- OPEN: result of `self._post()`. -/
  postOk : Bool
  /-- SENDING: the bytes `self.file.read(CHUNK_SIZE)` yields. -/
  fileRead : List Nat
  /-- SENDING: result of `self._send_chunk` (exceptions yield 0). -/
  sendRes : Nat
  /-- CLOSING: `some resp` from `read_response`, `none` if it raises. -/
  readResp : Option (List Nat)

/-- Externally visible effects of one tick. -/
inductive HFAct
  | closeFile
  | closeHttp
  | openFile
  deriving DecidableEq, Repr

/-- One `tick()` of `SoracomHarvestFiles`, as a pure transition returning
the new field values and the effects performed. -/
def tick (s : HFSt) (env : HFEnv) : HFSt × List HFAct :=
  match s.state with
  | .HF_IDLE => (s, [])
  | .HF_PREPARE =>
    -- close any file left over, clearing `self.file`
    let acts0 := if s.hasFile then [HFAct.closeFile] else []
    let s0 := { s with hasFile := false }
    match env.statRes with
    | some size =>
      if size ≤ 0 then ({ s0 with filesize := size, state := .HF_DONE }, acts0)
      else ({ s0 with filesize := size, hasFile := true, state := .HF_OPEN },
            acts0 ++ [HFAct.openFile])
    | none => ({ s0 with state := .HF_WAIT, next_time := env.now + 60 }, acts0)
  | .HF_OPEN =>
    if env.postOk then
      ({ s with buf := [], buf_offset := 0, sent_bytes := 0, retry := 0,
                state := .HF_SENDING }, [])
    else
      let hr := s.header_retry + 1
      if hr ≥ 3 then ({ s with header_retry := hr, state := .HF_ABORT }, [])
      else ({ s with header_retry := hr, state := .HF_WAIT, next_time := env.now + 3 }, [])
  | .HF_SENDING =>
    let refill := s.buf = []
    let buf := if refill then env.fileRead else s.buf
    let off := if refill then 0 else s.buf_offset
    if refill ∧ buf = [] then
      ({ s with buf := buf, buf_offset := off, state := .HF_CLOSING }, [])
    else
      let sent := env.sendRes
      if sent > 0 then
        let off' := off + sent
        let s' := { s with buf := buf, buf_offset := off',
                           sent_bytes := s.sent_bytes + sent, retry := 0 }
        if off' ≥ buf.length then ({ s' with buf := [], buf_offset := 0 }, [])
        else (s', [])
      else
        let r := s.retry + 1
        if r ≥ 20 then ({ s with buf := buf, buf_offset := off, retry := r,
                                 state := .HF_ABORT }, [])
        else ({ s with buf := buf, buf_offset := off, retry := r }, [])
  | .HF_CLOSING =>
    ({ s with last_response := env.readResp.getD [], state := .HF_DONE }, [])
  | .HF_DONE =>
    let acts := (if s.hasFile then [HFAct.closeFile] else []) ++ [HFAct.closeHttp]
    ({ s with hasFile := false, state := .HF_IDLE }, acts)
  | .HF_ABORT =>
    let acts := (if s.hasFile then [HFAct.closeFile] else []) ++ [HFAct.closeHttp]
    ({ s with state := .HF_WAIT, next_time := env.now + 300 }, acts)
  | .HF_WAIT =>
    if env.now ≥ s.next_time then
      ({ s with retry := 0, header_retry := 0, state := .HF_PREPARE }, [])
    else (s, [])

/-- `is_busy()` of `SoracomHarvestFiles`. -/
def is_busy (s : HFSt) : Bool := s.state ≠ .HF_IDLE

/-- **C7** — A `tick()` in `ABORT` closes the file (when one is held) and
the socket, sets `next_time` to the current time plus 300 seconds and
moves to `WAIT`; a `tick()` in `WAIT` with the clock at or past
`next_time` resets both retry counters to zero and moves to `PREPARE`
(and leaves the state alone before the deadline); `is_busy()` stays true
throughout this `ABORT`/`WAIT` cycle. -/
theorem hf_abort_wait_cycle (s : HFSt) (env : HFEnv) :
    (s.state = .HF_ABORT →
        (tick s env).1.state = .HF_WAIT
          ∧ (tick s env).1.next_time = env.now + 300
          ∧ HFAct.closeHttp ∈ (tick s env).2
          ∧ (s.hasFile = true → HFAct.closeFile ∈ (tick s env).2)
          ∧ is_busy (tick s env).1 = true)
      ∧ (s.state = .HF_WAIT → env.now ≥ s.next_time →
        (tick s env).1.state = .HF_PREPARE
          ∧ (tick s env).1.retry = 0
          ∧ (tick s env).1.header_retry = 0
          ∧ is_busy (tick s env).1 = true)
      ∧ (s.state = .HF_WAIT → env.now < s.next_time →
        tick s env = (s, []) ∧ is_busy s = true)
      ∧ (s.state = .HF_ABORT → is_busy s = true)
      ∧ (s.state = .HF_WAIT → is_busy s = true) := by
  refine ⟨?_, ?_, ?_, ?_, ?_⟩
  · intro h
    by_cases hf : s.hasFile <;> simp [tick, h, is_busy, hf]
  · intro h hn
    simp [tick, h, is_busy, if_pos hn, hn]
  · intro h hn
    simp [tick, h, is_busy, show ¬ env.now ≥ s.next_time by omega]
  · intro h; simp [is_busy, h]
  · intro h; simp [is_busy, h]

/-- Witness for `hf_abort_wait_cycle`: a concrete `ABORT` state and a
concrete expired `WAIT` state. -/
theorem hf_abort_wait_cycle_witness :
    (tick ⟨.HF_ABORT, true, 3072, [], 0, 0, 5, 3, 0, []⟩
        ⟨1000, none, false, [], 0, none⟩).1.state = .HF_WAIT
      ∧ (tick ⟨.HF_ABORT, true, 3072, [], 0, 0, 5, 3, 0, []⟩
        ⟨1000, none, false, [], 0, none⟩).1.next_time = 1300
      ∧ (tick ⟨.HF_WAIT, true, 3072, [], 0, 0, 5, 3, 1300, []⟩
        ⟨1300, none, false, [], 0, none⟩).1.state = .HF_PREPARE
      ∧ (tick ⟨.HF_WAIT, true, 3072, [], 0, 0, 5, 3, 1300, []⟩
        ⟨1300, none, false, [], 0, none⟩).1.retry = 0 := by
  have h1 := hf_abort_wait_cycle ⟨.HF_ABORT, true, 3072, [], 0, 0, 5, 3, 0, []⟩
    ⟨1000, none, false, [], 0, none⟩
  have h2 := hf_abort_wait_cycle ⟨.HF_WAIT, true, 3072, [], 0, 0, 5, 3, 1300, []⟩
    ⟨1300, none, false, [], 0, none⟩
  obtain ⟨ha, -⟩ := h1
  obtain ⟨-, hb, -⟩ := h2
  have ha' := ha rfl
  have hb' := hb rfl (by norm_num)
  exact ⟨ha'.1, ha'.2.1, hb'.1, hb'.2.1⟩

/-! ## `micro_modem.py` — `wait_response` and `wait_response_async`

The synchronous `wait_response` polls the UART in a loop; we model the
clock readings at each iteration by `times : Nat → Nat`
(`ticks_diff(ticks_ms(), start)` at iteration `i`) and the bytes read by
`reads : Nat → List Nat`, with an explicit iteration budget `fuel`
(exhausting the budget is reported as a timeout, so any theorem about a
specific run supplies a schedule that terminates within its fuel).

`wait_response_async` does single-step cooperative waiting: one call
drains the UART once and either completes or stores its state.
-/

/-- The error markers `wait_response` scans for:
`b"ERROR"`, `b"+CME ERROR"`, `b"+CMS ERROR"`. -/
def hasErrorMarker (buf : List Nat) : Bool :=
  containsSeq buf [69, 82, 82, 79, 82]
    || containsSeq buf [43, 67, 77, 69, 32, 69, 82, 82, 79, 82]
    || containsSeq buf [43, 67, 77, 83, 32, 69, 82, 82, 79, 82]

/-- How a synchronous `wait_response` run ended: expected substring seen
(`foundRes`), an error marker seen first (`errorRes`, Python returns
`None` / the raw buffer), or the deadline passed (`timeoutRes`). -/
inductive SyncRes
  | foundRes
  | errorRes
  | timeoutRes
  deriving DecidableEq, Repr

/-- `wait_response` of `micro_modem.py`: iteration `i`, accumulated
`buf` (which is also `self.last_response`), returning the outcome and the
final buffer. -/
def wait_response (expected : List Nat) (timeout : Nat)
    (times : Nat → Nat) (reads : Nat → List Nat) :
    Nat → Nat → List Nat → SyncRes × List Nat
  | 0, _, buf => (.timeoutRes, buf)
  | fuel + 1, i, buf =>
    if times i < timeout then
      if reads i = [] then wait_response expected timeout times reads fuel (i + 1) buf
      else
        let buf' := buf ++ reads i
        if hasErrorMarker buf' then (.errorRes, buf')
        else if containsSeq buf' expected then (.foundRes, buf')
        else wait_response expected timeout times reads fuel (i + 1) buf'
    else (.timeoutRes, buf)

/-- The `self._wait_state` dictionary of `wait_response_async`. -/
structure AWaitState where
  expected : List Nat
  timeout : Nat
  start : Nat
  buffer : List Nat
  deriving DecidableEq, Repr

/-- Result of one `wait_response_async` call: Python `True` / `None` /
`False`. -/
inductive ARes
  | afound
  | atimedOut
  | apending
  deriving DecidableEq, Repr

/-- One call of `wait_response_async` (`micro_modem.py`): `st0` is the
stored `_wait_state` (`none` on a fresh call, in which case the state is
created with `start := now` and an empty buffer), `data` the bytes
drained from the UART, `lastResp` the current `self.last_response`.
Returns the result, the new `_wait_state`, and the new `last_response`. -/
def wait_response_async (st0 : Option AWaitState) (expected : List Nat)
    (timeout now : Nat) (data lastResp : List Nat) :
    ARes × Option AWaitState × List Nat :=
  let st := st0.getD ⟨expected, timeout, now, []⟩
  let buf := st.buffer ++ data
  if containsSeq buf st.expected then (.afound, none, buf)
  else if now - st.start > st.timeout then (.atimedOut, none, buf)
  else (.apending, some { st with buffer := buf }, lastResp)

/-- **C9** — `wait_response_async` completes only when the expected
substring appears in the accumulated buffer (returning `True`) or the
recorded deadline expires (returning `None` after clearing the stored
state); an `ERROR` / `+CME ERROR` / `+CMS ERROR` marker in the buffer
never ends the wait early — within the deadline and without the expected
substring the call stays pending even on an error marker — unlike the
synchronous `wait_response`, which returns its error result as soon as a
read makes the buffer contain a marker. -/
theorem wait_response_async_ignores_errors (st0 : Option AWaitState)
    (expected : List Nat) (timeout now : Nat) (data lastResp : List Nat) :
    ((wait_response_async st0 expected timeout now data lastResp).1 = .afound
        ↔ containsSeq ((st0.getD ⟨expected, timeout, now, []⟩).buffer ++ data)
            (st0.getD ⟨expected, timeout, now, []⟩).expected = true)
      ∧ ((wait_response_async st0 expected timeout now data lastResp).1 = .atimedOut
        ↔ containsSeq ((st0.getD ⟨expected, timeout, now, []⟩).buffer ++ data)
            (st0.getD ⟨expected, timeout, now, []⟩).expected = false
          ∧ now - (st0.getD ⟨expected, timeout, now, []⟩).start
            > (st0.getD ⟨expected, timeout, now, []⟩).timeout)
      ∧ (((wait_response_async st0 expected timeout now data lastResp).1 = .afound
          ∨ (wait_response_async st0 expected timeout now data lastResp).1 = .atimedOut)
        ↔ (wait_response_async st0 expected timeout now data lastResp).2.1 = none)
      ∧ (hasErrorMarker ((st0.getD ⟨expected, timeout, now, []⟩).buffer ++ data) = true →
          containsSeq ((st0.getD ⟨expected, timeout, now, []⟩).buffer ++ data)
            (st0.getD ⟨expected, timeout, now, []⟩).expected = false →
          now - (st0.getD ⟨expected, timeout, now, []⟩).start
            ≤ (st0.getD ⟨expected, timeout, now, []⟩).timeout →
          (wait_response_async st0 expected timeout now data lastResp).1 = .apending)
      ∧ (∀ tmo : Nat, ∀ times reads : Nat → _, ∀ fuel i : Nat, ∀ buf0 : List Nat,
          times i < tmo → reads i ≠ [] → hasErrorMarker (buf0 ++ reads i) = true →
          wait_response expected tmo times reads (fuel + 1) i buf0
            = (.errorRes, buf0 ++ reads i)) := by
  refine ⟨?_, ?_, ?_, ?_, ?_⟩
  · by_cases hc : containsSeq ((st0.getD ⟨expected, timeout, now, []⟩).buffer ++ data)
        (st0.getD ⟨expected, timeout, now, []⟩).expected
    · simp [wait_response_async, hc]
    · by_cases ht : now - (st0.getD ⟨expected, timeout, now, []⟩).start
          > (st0.getD ⟨expected, timeout, now, []⟩).timeout <;>
        simp [wait_response_async, hc, ht]
  · by_cases hc : containsSeq ((st0.getD ⟨expected, timeout, now, []⟩).buffer ++ data)
        (st0.getD ⟨expected, timeout, now, []⟩).expected
    · simp [wait_response_async, hc]
    · by_cases ht : now - (st0.getD ⟨expected, timeout, now, []⟩).start
          > (st0.getD ⟨expected, timeout, now, []⟩).timeout <;>
        simp [wait_response_async, hc, ht]
  · by_cases hc : containsSeq ((st0.getD ⟨expected, timeout, now, []⟩).buffer ++ data)
        (st0.getD ⟨expected, timeout, now, []⟩).expected
    · simp [wait_response_async, hc]
    · by_cases ht : now - (st0.getD ⟨expected, timeout, now, []⟩).start
          > (st0.getD ⟨expected, timeout, now, []⟩).timeout <;>
        simp [wait_response_async, hc, ht]
  · intro _ hc ht
    simp [wait_response_async, hc, show ¬ now - (st0.getD ⟨expected, timeout, now, []⟩).start
        > (st0.getD ⟨expected, timeout, now, []⟩).timeout by omega]
  · intro tmo times reads fuel i buf0 h1 h2 h3
    simp only [wait_response]
    rw [if_pos h1, if_neg h2, if_pos h3]

/-- Witness for `wait_response_async_ignores_errors`: a stored wait for
`b"OK"` whose buffer, after draining `b"ROR"`, reads `b"ERROR"` — within
the deadline the async probe stays pending, while on the same bytes a
synchronous `wait_response` iteration returns its error result. -/
theorem wait_response_async_ignores_errors_witness :
    (wait_response_async (some ⟨[79, 75], 2000, 0, [69, 82]⟩) [79, 75] 2000 100
        [82, 79, 82] []).1 = .apending
      ∧ wait_response [79, 75] 2000 (fun _ => 100) (fun _ => [69, 82, 82, 79, 82]) 1 0 []
        = (.errorRes, [69, 82, 82, 79, 82]) := by
  have h := wait_response_async_ignores_errors (some ⟨[79, 75], 2000, 0, [69, 82]⟩)
    [79, 75] 2000 100 [82, 79, 82] []
  refine ⟨h.2.2.2.1 (by decide) (by decide) (by decide), ?_⟩
  have h2 := h.2.2.2.2 2000 (fun _ => 100) (fun _ => [69, 82, 82, 79, 82]) 0 0 []
    (by decide) (by decide) (by decide)
  simpa using h2

/-! ## `ublox_sara_r.py` — URC demux and the socket receive path -/

/-- `b"+USORD:"`. -/
def usordKey : List Nat := [43, 85, 83, 79, 82, 68, 58]

/-- `b"+UUSORD:"`. -/
def uusordKey : List Nat := [43, 85, 85, 83, 79, 82, 68, 58]

/-- `b"+UUSOCL:"`. -/
def uusoclKey : List Nat := [43, 85, 85, 83, 79, 67, 76, 58]

/-- `extract_usord_data` of `ublox_sara_r.py`: index-based scan — the
position of `+USORD:`, the first double-quote after it, the next
double-quote after that, and the slice between the two quotes. -/
def extract_usord_data (resp : List Nat) : Option (List Nat) :=
  match findSub resp usordKey with
  | none => none
  | some idx =>
    match findByteFrom resp 34 idx with
    | none => none
    | some start =>
      match findByteFrom resp 34 (start + 1) with
      | none => none
      | some e => some ((resp.drop (start + 1)).take (e - (start + 1)))

/-- The payload extraction as the spec's words describe it for C3: from
the first double-quote after `+USORD:` up to the LAST double-quote of the
response.  Stated only to compare with `extract_usord_data`. -/
def extract_usord_data_spec_last (resp : List Nat) : Option (List Nat) :=
  match findSub resp usordKey with
  | none => none
  | some idx =>
    match findByteFrom resp 34 idx with
    | none => none
    | some start =>
      match rfindByte resp 34 with
      | none => none
      | some e =>
        if start + 1 ≤ e then some ((resp.drop (start + 1)).take (e - (start + 1)))
        else none

/-- `int(parts[0])`, `int(parts[1])` of a stripped `+UUSORD:` line;
`none` models the exceptions the source catches (missing comma, bad
digits). -/
def parseUusordLine (line : List Nat) : Option (Int × Int) :=
  match (splitOnceByte 58 line).2 with
  | none => none
  | some after =>
    match splitOnByte 44 after with
    | p0 :: p1 :: _ =>
      match pyInt p0, pyInt p1 with
      | some sock, some length => some (sock, length)
      | _, _ => none
    | _ => none

/-- Environment of `_handle_uusord`: the modem's reply to the `i`-th
`AT+USORD` exchange of this call, and whether that `send_at` succeeded. -/
structure UusordEnv where
  usordResp : Nat → List Nat
  usordOk : Nat → Bool

/-- Result of `_handle_uusord`: the new `_rx_buffer`, the two flags it
returns, and the `AT+USORD=<sock>,<length>` commands it wrote. -/
structure UusordOut where
  rxBuf : List Nat
  okReceived : Bool
  uusoclReceived : Bool
  issued : List (Int × Int)
  deriving DecidableEq, Repr

/-- The `for resp_line in resp.split(b"\r\n")` flag scan inside
`_handle_uusord`. -/
def respFlagsGo : List (List Nat) → Bool → Bool → Bool × Bool
  | [], ok, uu => (ok, uu)
  | l :: ls, ok, uu =>
    let s := stripB l
    if s = [79, 75] then respFlagsGo ls true uu
    else if isPrefixB uusoclKey s then respFlagsGo ls ok true
    else respFlagsGo ls ok uu

/-- The line loop of `_handle_uusord`; `k` counts the `AT+USORD`
exchanges so far. -/
def handle_uusord_go (sockExpected : Option Int) (env : UusordEnv) :
    List (List Nat) → List Nat → Bool → Bool → List (Int × Int) → Nat → UusordOut
  | [], buf, ok, uu, issued, _ => ⟨buf, ok, uu, issued⟩
  | line0 :: rest, buf, ok, uu, issued, k =>
    let line := stripB line0
    if line = [] then handle_uusord_go sockExpected env rest buf ok uu issued k
    else if isPrefixB uusordKey line then
      match parseUusordLine line with
      | none => handle_uusord_go sockExpected env rest buf ok uu issued k
      | some (sock, length) =>
        let mismatch : Bool := match sockExpected with
          | some e => sock != e
          | none => false
        if mismatch then handle_uusord_go sockExpected env rest buf ok uu issued k
        else
          -- `AT+USORD=<sock>,<length>` is written here, unconditionally
          let issued' := issued ++ [(sock, length)]
          if env.usordOk k = false then
            handle_uusord_go sockExpected env rest buf ok uu issued' (k + 1)
          else
            let resp := env.usordResp k
            let buf' := match extract_usord_data resp with
              | some payload => if payload = [] then buf else buf ++ payload
              | none => buf
            let (ok', uu') := respFlagsGo (splitCRLF resp) ok uu
            handle_uusord_go sockExpected env rest buf' ok' uu' issued' (k + 1)
    else handle_uusord_go sockExpected env rest buf ok uu issued k

/-- `_handle_uusord` of `ublox_sara_r.py`. -/
def handle_uusord (decoded : List Nat) (sockExpected : Option Int)
    (env : UusordEnv) (rxBuf : List Nat) : UusordOut :=
  handle_uusord_go sockExpected env (splitCRLF decoded) rxBuf false false [] 0

/-- Environment of `socket_recv`: the UART poll schedule feeding its
synchronous `wait_response`, plus the `AT+USORD` oracle for the demux. -/
structure RecvEnv where
  times : Nat → Nat
  reads : Nat → List Nat
  fuel : Nat
  uusord : UusordEnv

/-- `socket_recv` of `ublox_sara_r.py`: returns the bytes handed to the
caller and the `_rx_buffer` left behind.  With a non-empty buffer it pops
up to `size` bytes; otherwise it synchronously waits for `+UUSORD:` with
a 3000 ms timeout and on success routes the response through
`_handle_uusord`. -/
def socket_recv (sock : Int) (size : Nat) (rxBuf : List Nat) (env : RecvEnv) :
    List Nat × List Nat :=
  if rxBuf ≠ [] then (rxBuf.take size, rxBuf.drop size)
  else
    match wait_response uusordKey 3000 env.times env.reads env.fuel 0 [] with
    | (.foundRes, resp) =>
      let o := handle_uusord resp (some sock) env.uusord rxBuf
      if o.okReceived then (o.rxBuf.take size, o.rxBuf.drop size)
      else ([], o.rxBuf)
    | (_, _) => ([], rxBuf)

/-- The per-socket receive bookkeeping of `SaraR` touched by
`socket_close`: the shared `_rx_buffer` and the `_rx_pending` dict. -/
structure SockState where
  rx_buffer : List Nat
  rx_pending : List (Int × Nat)
  deriving DecidableEq, Repr

/-- Python dict assignment `self._rx_pending[sock_num] = v`. -/
def setPending : List (Int × Nat) → Int → Nat → List (Int × Nat)
  | [], sock, v => [(sock, v)]
  | (k, x) :: rest, sock, v =>
    if k = sock then (k, v) :: rest else (k, x) :: setPending rest sock v

/-- Python dict lookup `self._rx_pending.get(sock_num)`. -/
def getPending : List (Int × Nat) → Int → Option Nat
  | [], _ => none
  | (k, x) :: rest, sock => if k = sock then some x else getPending rest sock

/-- `socket_close` of `ublox_sara_r.py`: sends `AT+USOCL=<sock>` (only
logged on timeout) and clears the pending count for that socket.  The
shared `_rx_buffer` is not touched. -/
def socket_close (st : SockState) (sock : Int) : SockState :=
  { st with rx_pending := setPending st.rx_pending sock 0 }

/-! ### Scanning lemmas for the index-based payload extraction -/

theorem isPrefixB_append {key l : List Nat} (h : isPrefixB key l = true) (r : List Nat) :
    isPrefixB key (l ++ r) = true := by
  induction key generalizing l with
  | nil => simp [isPrefixB]
  | cons k ks ih =>
    cases l with
    | nil => simp [isPrefixB] at h
    | cons x xs =>
      simp only [isPrefixB, Bool.and_eq_true, beq_iff_eq] at h
      simp only [List.cons_append, isPrefixB, Bool.and_eq_true, beq_iff_eq]
      exact ⟨h.1, ih h.2⟩

theorem findSub_at_front {l key : List Nat} (h : isPrefixB key l = true) :
    findSub l key = some 0 := by
  cases l <;> simp [findSub, findSubAux, h]

theorem findByteAux_first (b : Nat) (l2 : List Nat) :
    ∀ (l1 : List Nat) (i : Nat), b ∉ l1 →
      findByteAux b (l1 ++ b :: l2) i = some (i + l1.length) := by
  intro l1
  induction l1 with
  | nil => intro i _; simp [findByteAux]
  | cons x xs ih =>
    intro i h
    have hx : x ≠ b := by
      intro hxb
      exact h (by simp [hxb])
    have hxs : b ∉ xs := fun hm => h (List.mem_cons_of_mem _ hm)
    simp only [List.cons_append, findByteAux, if_neg hx]
    show findByteAux b (xs ++ b :: l2) (i + 1) = some (i + (x :: xs).length)
    rw [ih (i + 1) hxs]
    congr 1
    simp only [List.length_cons]
    omega

theorem findByteFrom_zero (l : List Nat) (b : Nat) :
    findByteFrom l b 0 = findByteAux b l 0 := by
  cases h : findByteAux b l 0 <;> simp [findByteFrom, h]

/-- The heart of C3: on a response of the shape
`hdr ++ '"' ++ payload ++ '"' ++ post` with `+USORD:` leading `hdr` and no
double-quote inside `hdr` or `payload`, `extract_usord_data` returns
exactly `payload` — the bytes between the first double-quote after
`+USORD:` and the NEXT double-quote, CR/LF included. -/
theorem extract_usord_between (hdr payload post : List Nat)
    (hkey : isPrefixB usordKey hdr = true)
    (h1 : 34 ∉ hdr) (h2 : 34 ∉ payload) :
    extract_usord_data (hdr ++ 34 :: (payload ++ 34 :: post)) = some payload := by
  have h0 : findSub (hdr ++ 34 :: (payload ++ 34 :: post)) usordKey = some 0 :=
    findSub_at_front (isPrefixB_append hkey _)
  have hstart : findByteFrom (hdr ++ 34 :: (payload ++ 34 :: post)) 34 0
      = some hdr.length := by
    rw [findByteFrom_zero, findByteAux_first 34 _ hdr 0 h1]
    simp
  have hdrop : (hdr ++ 34 :: (payload ++ 34 :: post)).drop (hdr.length + 1)
      = payload ++ 34 :: post := by
    have hsplit : hdr ++ 34 :: (payload ++ 34 :: post)
        = (hdr ++ [34]) ++ (payload ++ 34 :: post) := by simp
    have hlen : hdr.length + 1 = (hdr ++ [34]).length := by simp
    rw [hsplit, hlen, List.drop_left]
  have hend : findByteFrom (hdr ++ 34 :: (payload ++ 34 :: post)) 34 (hdr.length + 1)
      = some (payload.length + (hdr.length + 1)) := by
    unfold findByteFrom
    rw [hdrop, findByteAux_first 34 post payload 0 h2]
    simp
  have harith : payload.length + (hdr.length + 1) - (hdr.length + 1) = payload.length := by
    omega
  simp only [extract_usord_data, h0, hstart, hend, hdrop, harith, List.take_left]

/-! ### Shared `socket_recv` facts -/

theorem socket_recv_nonempty (sock : Int) (size : Nat) (rxBuf : List Nat)
    (env : RecvEnv) (h : rxBuf ≠ []) :
    socket_recv sock size rxBuf env = (rxBuf.take size, rxBuf.drop size) := by
  simp [socket_recv, h]

theorem socket_recv_wait_failed (sock : Int) (size : Nat) (env : RecvEnv)
    (hw : (wait_response uusordKey 3000 env.times env.reads env.fuel 0 []).1 ≠ .foundRes) :
    (socket_recv sock size [] env).1 = [] := by
  unfold socket_recv
  rw [if_neg (by simp)]
  cases hres : wait_response uusordKey 3000 env.times env.reads env.fuel 0 [] with
  | mk r resp =>
    rw [hres] at hw
    cases r with
    | foundRes => simp at hw
    | errorRes => rfl
    | timeoutRes => rfl

/-- **C4** — `socket_recv(id, size)` with a non-empty `rx_buffer` pops and
returns at most `size` bytes — exactly the buffered bytes when `size` is
at least the buffer length, with no padding — and with an empty
`rx_buffer` it synchronously waits for `+UUSORD:` with a 3000 ms timeout
(baked into `socket_recv`) and returns the empty byte string when that
wait does not find the URC. -/
theorem socket_recv_pop_or_wait (sock : Int) (size : Nat) (rxBuf : List Nat)
    (env : RecvEnv) :
    (rxBuf ≠ [] → socket_recv sock size rxBuf env = (rxBuf.take size, rxBuf.drop size))
      ∧ (rxBuf ≠ [] → rxBuf.length ≤ size → (socket_recv sock size rxBuf env).1 = rxBuf)
      ∧ (rxBuf = [] →
          (wait_response uusordKey 3000 env.times env.reads env.fuel 0 []).1 ≠ .foundRes →
          (socket_recv sock size rxBuf env).1 = []) := by
  refine ⟨fun h => socket_recv_nonempty sock size rxBuf env h, fun h hle => ?_, fun h hw => ?_⟩
  · rw [socket_recv_nonempty sock size rxBuf env h]
    exact List.take_of_length_le hle
  · subst h
    exact socket_recv_wait_failed sock size env hw

/-- Witness for `socket_recv_pop_or_wait`: a 3-byte buffer popped with
`size = 512`, and an empty buffer against a UART that stays silent until
the 3000 ms deadline. -/
theorem socket_recv_pop_or_wait_witness :
    (socket_recv 0 512 [1, 2, 3] ⟨fun _ => 3000, fun _ => [], 1, ⟨fun _ => [], fun _ => true⟩⟩).1
        = [1, 2, 3]
      ∧ (socket_recv 0 512 [] ⟨fun _ => 3000, fun _ => [], 1, ⟨fun _ => [], fun _ => true⟩⟩).1
        = [] := by
  have h1 := socket_recv_pop_or_wait 0 512 [1, 2, 3]
    ⟨fun _ => 3000, fun _ => [], 1, ⟨fun _ => [], fun _ => true⟩⟩
  have h2 := socket_recv_pop_or_wait 0 512 []
    ⟨fun _ => 3000, fun _ => [], 1, ⟨fun _ => [], fun _ => true⟩⟩
  exact ⟨h1.2.1 (by decide) (by decide), h2.2.2 rfl (by decide)⟩

/-- **C6 (counterexample)** — The claim says that after `socket_close(id)`
every subsequent `socket_recv(id, …)` returns the empty byte string.  But
`socket_close` does not clear the shared `_rx_buffer`: with three bytes
left in the buffer, `socket_recv` after `socket_close` returns those
bytes, not the empty string. -/
theorem socket_recv_after_close_claim_false :
    (socket_recv 0 512 (socket_close ⟨[1, 2, 3], []⟩ 0).rx_buffer
        ⟨fun _ => 3000, fun _ => [], 1, ⟨fun _ => [], fun _ => true⟩⟩).1 = [1, 2, 3]
      ∧ ([1, 2, 3] : List Nat) ≠ [] := by
  exact ⟨rfl, by decide⟩

theorem getPending_setPending (l : List (Int × Nat)) (sock : Int) (v : Nat) :
    getPending (setPending l sock v) sock = some v := by
  induction l with
  | nil => simp [setPending, getPending]
  | cons p rest ih =>
    obtain ⟨k, x⟩ := p
    by_cases h : k = sock <;> simp [setPending, getPending, h, ih]

/-- **C6 (amended)** — `socket_close(id)` resets the `_rx_pending` entry
of the socket to 0 but leaves the shared `_rx_buffer` untouched: a
subsequent `socket_recv` still returns whatever bytes remain buffered
(up to `size`), and returns the empty byte string only once the buffer is
empty and the `+UUSORD:` wait fails. -/
theorem socket_close_keeps_rx_buffer (st : SockState) (sock : Int) (size : Nat)
    (env : RecvEnv) :
    (socket_close st sock).rx_buffer = st.rx_buffer
      ∧ getPending (socket_close st sock).rx_pending sock = some 0
      ∧ (st.rx_buffer ≠ [] →
          (socket_recv sock size (socket_close st sock).rx_buffer env).1
            = st.rx_buffer.take size)
      ∧ (st.rx_buffer = [] →
          (wait_response uusordKey 3000 env.times env.reads env.fuel 0 []).1 ≠ .foundRes →
          (socket_recv sock size (socket_close st sock).rx_buffer env).1 = []) := by
  refine ⟨rfl, getPending_setPending _ _ _, fun h => ?_, fun h hw => ?_⟩
  · rw [show (socket_close st sock).rx_buffer = st.rx_buffer from rfl,
      socket_recv_nonempty sock size st.rx_buffer env h]
  · rw [show (socket_close st sock).rx_buffer = st.rx_buffer from rfl, h]
    exact socket_recv_wait_failed sock size env hw

/-- Witness for `socket_close_keeps_rx_buffer`: closing socket 0 with
bytes still buffered. -/
theorem socket_close_keeps_rx_buffer_witness :
    (socket_close ⟨[7, 8], [(0, 5)]⟩ 0).rx_buffer = [7, 8]
      ∧ getPending (socket_close ⟨[7, 8], [(0, 5)]⟩ 0).rx_pending 0 = some 0
      ∧ (socket_recv 0 512 (socket_close ⟨[7, 8], [(0, 5)]⟩ 0).rx_buffer
          ⟨fun _ => 3000, fun _ => [], 1, ⟨fun _ => [], fun _ => true⟩⟩).1 = [7, 8] := by
  have h := socket_close_keeps_rx_buffer ⟨[7, 8], [(0, 5)]⟩ 0 512
    ⟨fun _ => 3000, fun _ => [], 1, ⟨fun _ => [], fun _ => true⟩⟩
  exact ⟨h.1, h.2.1, h.2.2.1 (by decide)⟩

/-- **C3 (counterexample)** — The claim says the payload is taken up to
the LAST matching double-quote.  On the response
`+USORD: 0,3,"a"b"\r\nOK` (a payload containing a double-quote) the code
stops at the first closing quote and yields `b"a"`, while the
last-quote reading of the spec yields `b"a\x22b"`. -/
theorem extract_usord_last_quote_claim_false :
    extract_usord_data
        [43, 85, 83, 79, 82, 68, 58, 32, 48, 44, 51, 44, 34, 97, 34, 98, 34, 13, 10, 79, 75]
      = some [97]
      ∧ extract_usord_data_spec_last
        [43, 85, 83, 79, 82, 68, 58, 32, 48, 44, 51, 44, 34, 97, 34, 98, 34, 13, 10, 79, 75]
      = some [97, 34, 98]
      ∧ (some [97] : Option (List Nat)) ≠ some [97, 34, 98] := by
  refine ⟨rfl, rfl, by decide⟩

/-- **C3 (amended)** — `extract_usord_data` returns the payload of a
`+USORD` response as the bytes lying between the first double-quote after
`+USORD:` and the NEXT (first closing) double-quote, with CR/LF inside
the payload kept as data: for the modem response
`+USORD: 0,5,"a\r\nbc"` followed by CRLF and `OK`, the `_rx_buffer`
gains exactly the 5 bytes `a`, CR, LF, `b`, `c`, with no splitting into
separate lines. -/
theorem extract_usord_payload_between_quotes (hdr payload post rxBuf : List Nat)
    (hkey : isPrefixB usordKey hdr = true)
    (h1 : 34 ∉ hdr) (h2 : 34 ∉ payload) :
    extract_usord_data (hdr ++ 34 :: (payload ++ 34 :: post)) = some payload
      ∧ (handle_uusord [43, 85, 85, 83, 79, 82, 68, 58, 32, 48, 44, 53] (some 0)
          ⟨fun _ => [43, 85, 83, 79, 82, 68, 58, 32, 48, 44, 53, 44,
                     34, 97, 13, 10, 98, 99, 34, 13, 10, 79, 75],
           fun _ => true⟩ rxBuf).rxBuf
        = rxBuf ++ [97, 13, 10, 98, 99] := by
  exact ⟨extract_usord_between hdr payload post hkey h1 h2, rfl⟩

/-- Witness for `extract_usord_payload_between_quotes`: the concrete
`+USORD: 0,5,"a\r\nbc"\r\nOK` response. -/
theorem extract_usord_payload_between_quotes_witness :
    extract_usord_data
        ([43, 85, 83, 79, 82, 68, 58, 32, 48, 44, 53, 44]
          ++ 34 :: ([97, 13, 10, 98, 99] ++ 34 :: [13, 10, 79, 75]))
      = some [97, 13, 10, 98, 99]
      ∧ (handle_uusord [43, 85, 85, 83, 79, 82, 68, 58, 32, 48, 44, 53] (some 0)
          ⟨fun _ => [43, 85, 83, 79, 82, 68, 58, 32, 48, 44, 53, 44,
                     34, 97, 13, 10, 98, 99, 34, 13, 10, 79, 75],
           fun _ => true⟩ []).rxBuf
        = [97, 13, 10, 98, 99] := by
  have h := extract_usord_payload_between_quotes
    [43, 85, 83, 79, 82, 68, 58, 32, 48, 44, 53, 44] [97, 13, 10, 98, 99]
    [13, 10, 79, 75] [] (by decide) (by decide) (by decide)
  exact ⟨h.1, h.2⟩

/-- **C8 (counterexample)** — The claim says a `+UUSORD` line announcing
0 bytes issues no `AT+USORD`.  Processing `+UUSORD: 0,0` in fact writes
`AT+USORD=0,0`: the issued-command list is `[(0, 0)]`, not empty. -/
theorem uusord_zero_issues_usord_claim_false :
    (handle_uusord [43, 85, 85, 83, 79, 82, 68, 58, 32, 48, 44, 48] (some 0)
        ⟨fun _ => [79, 75], fun _ => true⟩ []).issued = [(0, 0)]
      ∧ ([((0 : Int), (0 : Int))] : List (Int × Int)) ≠ [] := by
  exact ⟨rfl, by decide⟩

/-- **C8 (amended)** — When the URC demux processes a `+UUSORD` line whose
announced byte count is 0, it still issues `AT+USORD=<sock>,0`; there is
no special case for a zero length (for any `AT+USORD` oracle and any
starting buffer). -/
theorem uusord_zero_still_issues_usord (env : UusordEnv) (rxBuf : List Nat) :
    (handle_uusord [43, 85, 85, 83, 79, 82, 68, 58, 32, 48, 44, 48] (some 0) env rxBuf).issued
      = [(0, 0)] := by
  rcases hf : respFlagsGo (splitCRLF (env.usordResp 0)) false false with ⟨a, b⟩
  cases h : env.usordOk 0 <;>
    · simp only [handle_uusord, handle_uusord_go, h, hf]
      rfl

/-! ## `ublox_sara_r.py` — `get_time`

`get_time` sends `AT+CCLK?`, splits `last_response` on CR+LF, finds the
`+CCLK:` line, slices out the quoted `yy/MM/dd,HH:mm:ss±zz` and parses
it.  A parse failure inside the quoted payload raises in Python (there is
no `try` around it), which the model reports as the outer `none`;
`some none` is the explicit `return None` path; `some (some dt)` is a
parsed date-time. -/

/-- `b"+CCLK:"`. -/
def cclkKey : List Nat := [43, 67, 67, 76, 75, 58]

/-- The field parsing of `get_time` applied to the quoted `cclk` slice:
`split(",")` into date and time, `split("/")`/`int` on the date,
`split("+")[0]` then `split(":")`/`int` on the time. -/
def parse_cclk_fields (cclk : List Nat) : Option (Int × Int × Int × Int × Int × Int) :=
  match splitOnByte 44 cclk with
  | [d, t] =>
    match (splitOnByte 47 d).mapM pyInt with
    | some [y, mo, da] =>
      match (splitOnByte 58 ((splitOnByte 43 t).headD [])).mapM pyInt with
      | some [h, mi, s] => some (y, mo, da, h, mi, s)
      | _ => none
    | _ => none
  | _ => none

/-- The `for line in self.last_response.split(b"\r\n")` loop of
`get_time`, including the `full_year = 2000 + year_short` and the R410
`hour = (hour + 9) % 24` correction. -/
def get_time_lines (mdl : Model) :
    List (List Nat) → Option (Option (Int × Int × Int × Int × Int × Int))
  | [] => some none
  | line :: rest =>
    let s := stripB line
    if isPrefixB cclkKey s = false then get_time_lines mdl rest
    else
      match findByteFrom s 34 0 with
      | none => get_time_lines mdl rest
      | some start =>
        match findByteFrom s 34 (start + 1) with
        | none => get_time_lines mdl rest
        | some e =>
          let cclk := (s.drop (start + 1)).take (e - (start + 1))
          match parse_cclk_fields cclk with
          | none => none
          | some (y, mo, da, h, mi, sec) =>
            some (some (2000 + y, mo, da,
              (if mdl = .R410 then (h + 9) % 24 else h), mi, sec))

/-- `get_time` of `ublox_sara_r.py` applied to the `AT+CCLK?` response. -/
def get_time (resp : List Nat) (mdl : Model) :
    Option (Option (Int × Int × Int × Int × Int × Int)) :=
  get_time_lines mdl (splitCRLF resp)

/-- Days in a month of the proleptic Gregorian calendar (for the spec's
reading of the +9 h correction). -/
def daysInMonth (y m : Int) : Int :=
  if m = 2 then
    if (y % 4 = 0 ∧ y % 100 ≠ 0) ∨ y % 400 = 0 then 29 else 28
  else if m = 4 ∨ m = 6 ∨ m = 9 ∨ m = 11 then 30 else 31

/-- The spec's words for C5: the parsed date-time advanced by 9 hours,
rolling the date over when the hour passes midnight.  Stated only to
compare with the code's correction. -/
def advance9hSpec : Int × Int × Int × Int × Int × Int → Int × Int × Int × Int × Int × Int
  | (y, mo, d, h, mi, s) =>
    let h' := h + 9
    if h' < 24 then (y, mo, d, h', mi, s)
    else
      let d' := d + 1
      if d' ≤ daysInMonth y mo then (y, mo, d', h' - 24, mi, s)
      else if mo = 12 then (y + 1, 1, 1, h' - 24, mi, s)
      else (y, mo + 1, 1, h' - 24, mi, s)

/-! ### Byte-rendering of a `+CCLK` line and splitting lemmas -/

/-- Two-digit ASCII rendering of `n < 100`. -/
def two2 (n : Nat) : List Nat := [48 + n / 10, 48 + n % 10]

/-- `yy/MM/dd`. -/
def cclkDate (yy MM dd : Nat) : List Nat :=
  two2 yy ++ 47 :: (two2 MM ++ 47 :: two2 dd)

/-- `HH:mm:ss+36`. -/
def cclkTime (HH mm ss : Nat) : List Nat :=
  two2 HH ++ 58 :: (two2 mm ++ 58 :: (two2 ss ++ [43, 51, 54]))

/-- The quoted payload `yy/MM/dd,HH:mm:ss+36`. -/
def cclkInner (yy MM dd HH mm ss : Nat) : List Nat :=
  cclkDate yy MM dd ++ 44 :: cclkTime HH mm ss

/-- The full modem line `+CCLK: "yy/MM/dd,HH:mm:ss+36"`. -/
def cclkLine (yy MM dd HH mm ss : Nat) : List Nat :=
  43 :: 67 :: 67 :: 76 :: 75 :: 58 :: 32 :: 34 :: (cclkInner yy MM dd HH mm ss ++ [34])

/-- `HH:mm:ss-36` — a time part with a NEGATIVE zone.  The code's
`time_part.split("+")[0]` only strips a `+zz` suffix, so the `-36` stays
attached to the seconds field and `int()` raises. -/
def cclkTimeNeg (HH mm ss : Nat) : List Nat :=
  two2 HH ++ 58 :: (two2 mm ++ 58 :: (two2 ss ++ [45, 51, 54]))

/-- The quoted payload `yy/MM/dd,HH:mm:ss-36`. -/
def cclkInnerNeg (yy MM dd HH mm ss : Nat) : List Nat :=
  cclkDate yy MM dd ++ 44 :: cclkTimeNeg HH mm ss

/-- The full modem line `+CCLK: "yy/MM/dd,HH:mm:ss-36"`. -/
def cclkLineNeg (yy MM dd HH mm ss : Nat) : List Nat :=
  43 :: 67 :: 67 :: 76 :: 75 :: 58 :: 32 :: 34 :: (cclkInnerNeg yy MM dd HH mm ss ++ [34])

theorem splitCRLF_no_cr {l : List Nat} (h : ∀ c ∈ l, c ≠ 13) : splitCRLF l = [l] := by
  induction l with
  | nil => rfl
  | cons x xs ih =>
    have hx : x ≠ 13 := h x (by simp)
    have hxs : ∀ c ∈ xs, c ≠ 13 := fun c hc => h c (by simp [hc])
    rw [splitCRLF.eq_def]
    split
    · rename_i heq
      exact absurd heq (by simp)
    · rename_i rest heq
      injection heq with h1 _
      exact absurd h1 hx
    · rename_i y rest heq hne
      injection hne with h1 h2
      subst h1
      subst h2
      rw [ih hxs]

theorem splitOnByte_no_occ {b : Nat} {l : List Nat} (h : b ∉ l) :
    splitOnByte b l = [l] := by
  induction l with
  | nil => rfl
  | cons x xs ih =>
    have hx : x ≠ b := by intro he; exact h (by simp [he])
    have hxs : b ∉ xs := fun hm => h (List.mem_cons_of_mem _ hm)
    rw [splitOnByte.eq_def]
    simp only [if_neg hx]
    rw [ih hxs]

theorem splitOnByte_append {b : Nat} {l1 : List Nat} (h : b ∉ l1) (l2 : List Nat) :
    splitOnByte b (l1 ++ b :: l2) = l1 :: splitOnByte b l2 := by
  induction l1 with
  | nil => simp [splitOnByte]
  | cons x xs ih =>
    have hx : x ≠ b := by intro he; exact h (by simp [he])
    have hxs : b ∉ xs := fun hm => h (List.mem_cons_of_mem _ hm)
    rw [List.cons_append, splitOnByte.eq_def]
    simp only [if_neg hx]
    rw [ih hxs]

theorem stripB_of_ends {x y : Nat} (mid : List Nat)
    (hx : isSpaceB x = false) (hy : isSpaceB y = false) :
    stripB (x :: (mid ++ [y])) = x :: (mid ++ [y]) := by
  unfold stripB
  rw [List.dropWhile_cons_of_neg (by simp [hx])]
  have h1 : (x :: (mid ++ [y])).reverse = y :: (mid.reverse ++ [x]) := by
    simp
  rw [h1, List.dropWhile_cons_of_neg (by simp [hy])]
  simp

theorem stripB_two2 (n : Nat) : stripB (two2 n) = two2 n := by
  show stripB ((48 + n / 10) :: ([] ++ [48 + n % 10])) = two2 n
  rw [stripB_of_ends [] (by simp [isSpaceB]; omega) (by simp [isSpaceB]; omega)]
  simp [two2]

theorem digitsVal_two (a b : Nat) (ha : a ≤ 9) (hb : b ≤ 9) :
    digitsVal [48 + a, 48 + b] = some (a * 10 + b) := by
  unfold digitsVal
  rw [if_neg (by simp)]
  unfold digitsValAux
  rw [if_pos (by omega)]
  unfold digitsValAux
  rw [if_pos (by omega)]
  unfold digitsValAux
  congr 1
  omega

theorem pyInt_two2 {n : Nat} (h : n < 100) : pyInt (two2 n) = some (n : Int) := by
  unfold pyInt
  rw [stripB_two2]
  show (if 48 + n / 10 = 45 then (digitsVal [48 + n % 10]).map (fun m => -(m : Int))
    else if 48 + n / 10 = 43 then (digitsVal [48 + n % 10]).map (fun m => (m : Int))
    else (digitsVal ((48 + n / 10) :: [48 + n % 10])).map (fun m => (m : Int)))
      = some (n : Int)
  rw [if_neg (by omega), if_neg (by omega)]
  rw [show (48 + n / 10) :: [48 + n % 10] = [48 + n / 10, 48 + n % 10] from rfl]
  rw [digitsVal_two (n / 10) (n % 10) (by omega) (by omega)]
  show some ((n / 10 * 10 + n % 10 : Nat) : Int) = some (n : Int)
  congr 1
  omega

theorem digitsValAux_neg_tail (a b acc : Nat) (ha : a ≤ 9) (hb : b ≤ 9) :
    digitsValAux [48 + a, 48 + b, 45, 51, 54] acc = none := by
  unfold digitsValAux
  rw [if_pos (by omega)]
  unfold digitsValAux
  rw [if_pos (by omega)]
  unfold digitsValAux
  rw [if_neg (by omega)]

theorem pyInt_two2_neg {n : Nat} (h : n < 100) :
    pyInt (two2 n ++ [45, 51, 54]) = none := by
  have hstrip : stripB ((48 + n / 10) :: ([48 + n % 10, 45, 51] ++ [54]))
      = (48 + n / 10) :: ([48 + n % 10, 45, 51] ++ [54]) :=
    stripB_of_ends _ (by simp [isSpaceB]; omega) (by decide)
  unfold pyInt
  rw [show two2 n ++ [45, 51, 54]
      = (48 + n / 10) :: ([48 + n % 10, 45, 51] ++ [54]) from rfl, hstrip]
  show (if 48 + n / 10 = 45 then
      (digitsVal ([48 + n % 10, 45, 51] ++ [54])).map (fun m => -(m : Int))
    else if 48 + n / 10 = 43 then
      (digitsVal ([48 + n % 10, 45, 51] ++ [54])).map (fun m => (m : Int))
    else (digitsVal ((48 + n / 10) :: ([48 + n % 10, 45, 51] ++ [54]))).map
      (fun m => (m : Int))) = none
  rw [if_neg (by omega), if_neg (by omega)]
  rw [show (48 + n / 10) :: ([48 + n % 10, 45, 51] ++ [54])
      = [48 + n / 10, 48 + n % 10, 45, 51, 54] from rfl]
  unfold digitsVal
  rw [if_neg (by simp)]
  rw [digitsValAux_neg_tail (n / 10) (n % 10) 0 (by omega) (by omega)]
  rfl

theorem parse_cclk_inner (yy MM dd HH mm ss : Nat)
    (hy : yy < 100) (hM : MM < 100) (hd : dd < 100)
    (hH : HH < 100) (hm : mm < 100) (hs : ss < 100) :
    parse_cclk_fields (cclkInner yy MM dd HH mm ss)
      = some ((yy : Int), (MM : Int), (dd : Int), (HH : Int), (mm : Int), (ss : Int)) := by
  have e1 := pyInt_two2 hy
  have e2 := pyInt_two2 hM
  have e3 := pyInt_two2 hd
  have e4 := pyInt_two2 hH
  have e5 := pyInt_two2 hm
  have e6 := pyInt_two2 hs
  have s1 : splitOnByte 44 (cclkInner yy MM dd HH mm ss)
      = [cclkDate yy MM dd, cclkTime HH mm ss] := by
    unfold cclkInner
    rw [splitOnByte_append (by intro hmem; simp [cclkDate, two2] at hmem; omega),
      splitOnByte_no_occ (by intro hmem; simp [cclkTime, two2] at hmem; omega)]
  have s2 : splitOnByte 47 (cclkDate yy MM dd) = [two2 yy, two2 MM, two2 dd] := by
    unfold cclkDate
    rw [splitOnByte_append (by intro hmem; simp [two2] at hmem; omega),
      splitOnByte_append (by intro hmem; simp [two2] at hmem; omega),
      splitOnByte_no_occ (by intro hmem; simp [two2] at hmem; omega)]
  have s4 : splitOnByte 43 (cclkTime HH mm ss)
      = [two2 HH ++ 58 :: (two2 mm ++ 58 :: two2 ss), [51, 54]] := by
    rw [show cclkTime HH mm ss
        = (two2 HH ++ 58 :: (two2 mm ++ 58 :: two2 ss)) ++ 43 :: [51, 54] by
      simp [cclkTime, two2]]
    rw [splitOnByte_append (by intro hmem; simp [two2] at hmem; omega),
      splitOnByte_no_occ (by decide)]
  have s6 : splitOnByte 58 (two2 HH ++ 58 :: (two2 mm ++ 58 :: two2 ss))
      = [two2 HH, two2 mm, two2 ss] := by
    rw [splitOnByte_append (by intro hmem; simp [two2] at hmem; omega),
      splitOnByte_append (by intro hmem; simp [two2] at hmem; omega),
      splitOnByte_no_occ (by intro hmem; simp [two2] at hmem; omega)]
  simp only [parse_cclk_fields, s1, s2, s4, s6, List.headD_cons,
    List.mapM_cons, List.mapM_nil, e1, e2, e3, e4, e5, e6,
    Option.pure_def, Option.bind_eq_bind, Option.some_bind]

/-- On a negative-zone payload the date still parses, but
`split("+")[0]` leaves `-36` glued to the seconds, `int()` fails, and the
field parse reports the exception. -/
theorem parse_cclk_inner_neg (yy MM dd HH mm ss : Nat)
    (hy : yy < 100) (hM : MM < 100) (hd : dd < 100)
    (hH : HH < 100) (hm : mm < 100) (hs : ss < 100) :
    parse_cclk_fields (cclkInnerNeg yy MM dd HH mm ss) = none := by
  have e1 := pyInt_two2 hy
  have e2 := pyInt_two2 hM
  have e3 := pyInt_two2 hd
  have e4 := pyInt_two2 hH
  have e5 := pyInt_two2 hm
  have e6 := pyInt_two2_neg hs
  have s1 : splitOnByte 44 (cclkInnerNeg yy MM dd HH mm ss)
      = [cclkDate yy MM dd, cclkTimeNeg HH mm ss] := by
    unfold cclkInnerNeg
    rw [splitOnByte_append (by intro hmem; simp [cclkDate, two2] at hmem; omega),
      splitOnByte_no_occ (by intro hmem; simp [cclkTimeNeg, two2] at hmem; omega)]
  have s2 : splitOnByte 47 (cclkDate yy MM dd) = [two2 yy, two2 MM, two2 dd] := by
    unfold cclkDate
    rw [splitOnByte_append (by intro hmem; simp [two2] at hmem; omega),
      splitOnByte_append (by intro hmem; simp [two2] at hmem; omega),
      splitOnByte_no_occ (by intro hmem; simp [two2] at hmem; omega)]
  have s4 : splitOnByte 43 (cclkTimeNeg HH mm ss) = [cclkTimeNeg HH mm ss] :=
    splitOnByte_no_occ (by intro hmem; simp [cclkTimeNeg, two2] at hmem; omega)
  have s6 : splitOnByte 58 (cclkTimeNeg HH mm ss)
      = [two2 HH, two2 mm, two2 ss ++ [45, 51, 54]] := by
    unfold cclkTimeNeg
    rw [splitOnByte_append (by intro hmem; simp [two2] at hmem; omega),
      splitOnByte_append (by intro hmem; simp [two2] at hmem; omega),
      splitOnByte_no_occ (by intro hmem; simp [two2] at hmem; omega)]
  simp only [parse_cclk_fields, s1, s2, s4, s6, List.headD_cons,
    List.mapM_cons, List.mapM_nil, e1, e2, e3, e4, e5, e6,
    Option.pure_def, Option.bind_eq_bind, Option.some_bind, Option.none_bind]

theorem cclkLine_no_cr (yy MM dd HH mm ss : Nat) :
    ∀ c ∈ cclkLine yy MM dd HH mm ss, c ≠ 13 := by
  intro c hc
  simp [cclkLine, cclkInner, cclkDate, cclkTime, two2] at hc
  omega

theorem stripB_cclkLine (yy MM dd HH mm ss : Nat) :
    stripB (cclkLine yy MM dd HH mm ss) = cclkLine yy MM dd HH mm ss := by
  show stripB (43 :: ((67 :: 67 :: 76 :: 75 :: 58 :: 32 :: 34 ::
      cclkInner yy MM dd HH mm ss) ++ [34])) = cclkLine yy MM dd HH mm ss
  rw [stripB_of_ends _ (by decide) (by decide)]
  rfl

theorem findQuote1_cclkLine (yy MM dd HH mm ss : Nat) :
    findByteFrom (cclkLine yy MM dd HH mm ss) 34 0 = some 7 := by
  rw [findByteFrom_zero]
  show findByteAux 34 ([43, 67, 67, 76, 75, 58, 32] ++ 34 ::
    (cclkInner yy MM dd HH mm ss ++ [34])) 0 = some 7
  rw [findByteAux_first 34 _ _ 0 (by decide)]
  rfl

theorem findQuote2_cclkLine (yy MM dd HH mm ss : Nat) :
    findByteFrom (cclkLine yy MM dd HH mm ss) 34 8
      = some ((cclkInner yy MM dd HH mm ss).length + 8) := by
  unfold findByteFrom
  show (findByteAux 34 (cclkInner yy MM dd HH mm ss ++ 34 :: []) 0).map (· + 8)
    = some ((cclkInner yy MM dd HH mm ss).length + 8)
  rw [findByteAux_first 34 [] _ 0 (by
    intro hmem
    simp [cclkInner, cclkDate, cclkTime, two2] at hmem
    omega)]
  simp

theorem cclk_slice (yy MM dd HH mm ss : Nat) :
    (((cclkLine yy MM dd HH mm ss).drop 8).take
        ((cclkInner yy MM dd HH mm ss).length + 8 - 8))
      = cclkInner yy MM dd HH mm ss := by
  show ((cclkInner yy MM dd HH mm ss ++ [34]).take
    ((cclkInner yy MM dd HH mm ss).length + 8 - 8)) = cclkInner yy MM dd HH mm ss
  rw [show (cclkInner yy MM dd HH mm ss).length + 8 - 8
    = (cclkInner yy MM dd HH mm ss).length by omega]
  exact List.take_left _ _

theorem cclkLineNeg_no_cr (yy MM dd HH mm ss : Nat) :
    ∀ c ∈ cclkLineNeg yy MM dd HH mm ss, c ≠ 13 := by
  intro c hc
  simp [cclkLineNeg, cclkInnerNeg, cclkDate, cclkTimeNeg, two2] at hc
  omega

theorem stripB_cclkLineNeg (yy MM dd HH mm ss : Nat) :
    stripB (cclkLineNeg yy MM dd HH mm ss) = cclkLineNeg yy MM dd HH mm ss := by
  show stripB (43 :: ((67 :: 67 :: 76 :: 75 :: 58 :: 32 :: 34 ::
      cclkInnerNeg yy MM dd HH mm ss) ++ [34])) = cclkLineNeg yy MM dd HH mm ss
  rw [stripB_of_ends _ (by decide) (by decide)]
  rfl

theorem findQuote1_cclkLineNeg (yy MM dd HH mm ss : Nat) :
    findByteFrom (cclkLineNeg yy MM dd HH mm ss) 34 0 = some 7 := by
  rw [findByteFrom_zero]
  show findByteAux 34 ([43, 67, 67, 76, 75, 58, 32] ++ 34 ::
    (cclkInnerNeg yy MM dd HH mm ss ++ [34])) 0 = some 7
  rw [findByteAux_first 34 _ _ 0 (by decide)]
  rfl

theorem findQuote2_cclkLineNeg (yy MM dd HH mm ss : Nat) :
    findByteFrom (cclkLineNeg yy MM dd HH mm ss) 34 8
      = some ((cclkInnerNeg yy MM dd HH mm ss).length + 8) := by
  unfold findByteFrom
  show (findByteAux 34 (cclkInnerNeg yy MM dd HH mm ss ++ 34 :: []) 0).map (· + 8)
    = some ((cclkInnerNeg yy MM dd HH mm ss).length + 8)
  rw [findByteAux_first 34 [] _ 0 (by
    intro hmem
    simp [cclkInnerNeg, cclkDate, cclkTimeNeg, two2] at hmem
    omega)]
  simp

theorem cclk_slice_neg (yy MM dd HH mm ss : Nat) :
    (((cclkLineNeg yy MM dd HH mm ss).drop 8).take
        ((cclkInnerNeg yy MM dd HH mm ss).length + 8 - 8))
      = cclkInnerNeg yy MM dd HH mm ss := by
  show ((cclkInnerNeg yy MM dd HH mm ss ++ [34]).take
    ((cclkInnerNeg yy MM dd HH mm ss).length + 8 - 8)) = cclkInnerNeg yy MM dd HH mm ss
  rw [show (cclkInnerNeg yy MM dd HH mm ss).length + 8 - 8
    = (cclkInnerNeg yy MM dd HH mm ss).length by omega]
  exact List.take_left _ _

/-- **C5 (counterexample)** — The claim fails twice.  (1) It says that
for R410 the exposed time equals the parsed time advanced by 9 hours:
parsing `+CCLK: "25/01/10,20:00:00+36"` yields 2025-01-10 20:00:00 (the
R510 path exposes it unchanged); advancing that by 9 hours crosses
midnight to 2025-01-11 05:00:00, but the R410 code wraps only the hour
(`(hour + 9) % 24`) and exposes 2025-01-10 05:00:00 — the day is not
advanced.  (2) It says `get_time` parses a `±zz` zone: on the
negative-zone reply `+CCLK: "25/01/10,20:00:00-36"` the code's
`time_part.split("+")[0]` leaves `-36` attached to the seconds and
`int()` raises an uncaught `ValueError` (the model's outer `none`), so
no date-time is produced at all. -/
theorem get_time_jst_advance_claim_false :
    get_time (cclkLine 25 1 10 20 0 0) .R510 = some (some (2025, 1, 10, 20, 0, 0))
      ∧ get_time (cclkLine 25 1 10 20 0 0) .R410 = some (some (2025, 1, 10, 5, 0, 0))
      ∧ advance9hSpec (2025, 1, 10, 20, 0, 0) = (2025, 1, 11, 5, 0, 0)
      ∧ ((2025, 1, 10, 5, 0, 0) : Int × Int × Int × Int × Int × Int)
        ≠ (2025, 1, 11, 5, 0, 0)
      ∧ get_time (cclkLineNeg 25 1 10 20 0 0) .R410 = none
      ∧ get_time (cclkLineNeg 25 1 10 20 0 0) .R510 = none := by
  exact ⟨rfl, rfl, by decide, by decide, rfl, rfl⟩

/-- **C5 (amended)** — Of the `"yy/MM/dd,HH:mm:ss±zz"` format the claim
names, `get_time` parses only replies with a POSITIVE zone
`"yy/MM/dd,HH:mm:ss+zz"`, into a date-time whose year is `2000 + yy`;
when the detected model is R410 the exposed hour is `(HH + 9) % 24` (the
JST offset applied to the hour only, with the date fields unchanged), and
for any other model the parsed time is exposed unchanged.  A reply with a
NEGATIVE zone `"yy/MM/dd,HH:mm:ss-zz"` is not parsed at all:
`time_part.split("+")[0]` leaves the `-zz` suffix on the seconds field
and `int()` raises an uncaught `ValueError` (the outer `none`). -/
theorem get_time_parses (yy MM dd HH mm ss : Nat) (mdl : Model)
    (hy : yy < 100) (hM : MM < 100) (hd : dd < 100)
    (hH : HH < 100) (hm : mm < 100) (hs : ss < 100) :
    get_time (cclkLine yy MM dd HH mm ss) mdl
      = some (some (2000 + (yy : Int), (MM : Int), (dd : Int),
          (if mdl = .R410 then ((HH : Int) + 9) % 24 else (HH : Int)),
          (mm : Int), (ss : Int)))
      ∧ get_time (cclkLineNeg yy MM dd HH mm ss) mdl = none := by
  constructor
  · unfold get_time
    rw [splitCRLF_no_cr (cclkLine_no_cr yy MM dd HH mm ss)]
    simp only [get_time_lines, stripB_cclkLine]
    rw [if_neg (by simp [cclkLine, cclkKey, isPrefixB])]
    simp only [findQuote1_cclkLine]
    rw [show (7 : Nat) + 1 = 8 from rfl]
    simp only [findQuote2_cclkLine, cclk_slice,
      parse_cclk_inner yy MM dd HH mm ss hy hM hd hH hm hs]
  · unfold get_time
    rw [splitCRLF_no_cr (cclkLineNeg_no_cr yy MM dd HH mm ss)]
    simp only [get_time_lines, stripB_cclkLineNeg]
    rw [if_neg (by simp [cclkLineNeg, cclkKey, isPrefixB])]
    simp only [findQuote1_cclkLineNeg]
    rw [show (7 : Nat) + 1 = 8 from rfl]
    simp only [findQuote2_cclkLineNeg, cclk_slice_neg,
      parse_cclk_inner_neg yy MM dd HH mm ss hy hM hd hH hm hs]

/-- Witness for `get_time_parses`: the concrete replies
`+CCLK: "25/01/10,20:00:00+36"` (parsed, under both R410 and R510) and
`+CCLK: "25/01/10,20:00:00-36"` (raises). -/
theorem get_time_parses_witness :
    get_time (cclkLine 25 1 10 20 0 0) .R410 = some (some (2025, 1, 10, 5, 0, 0))
      ∧ get_time (cclkLine 25 1 10 20 0 0) .R510 = some (some (2025, 1, 10, 20, 0, 0))
      ∧ get_time (cclkLineNeg 25 1 10 20 0 0) .R410 = none := by
  have h1 := get_time_parses 25 1 10 20 0 0 .R410
    (by norm_num) (by norm_num) (by norm_num) (by norm_num) (by norm_num) (by norm_num)
  have h2 := get_time_parses 25 1 10 20 0 0 .R510
    (by norm_num) (by norm_num) (by norm_num) (by norm_num) (by norm_num) (by norm_num)
  refine ⟨?_, ?_, h1.2⟩
  · rw [h1.1]
    norm_num
  · rw [h2.1]
    rw [if_neg (by intro hcon; cases hcon)]
    norm_num

end PocketMicroLIB
